import Mathlib

/-!
Verification of the quickblog-backend authentication core: a shallow
embedding of the user model (src/models/User.js), the auth middleware
(auth, optionalAuth, verifyRefreshToken) and the admin status route
(src/routes/users.js, PUT /:id/status), with theorems settling the
spec's claims about them.

Modelling conventions:
- JWTs are modelled structurally: a `Token` is its claim payload plus the
  secret recorded at signing time; `jwtVerify` accepts exactly when the
  verifying secret equals the recorded one and the expiry is in the
  future.  The compact JWT string serialization is deterministic and
  injective for a fixed algorithm, so string equality on serialized
  tokens (`tokenObj.token === refreshToken`) is structural equality here.
- The jsonwebtoken library checks the signature before the expiry claim,
  so an expired token with a wrong signature raises JsonWebTokenError,
  not TokenExpiredError; `jwtVerify` reproduces that order.
- bcrypt hashes are modelled as a constructor application recording the
  salt and the hashed input; `bcrypt.compare` succeeds exactly on the
  plaintext that was hashed (and always fails against a non-hash value).
- The document store is a list of user records; `findById` / `findOne`
  return the first match, `save` replaces the record with the same id.
- Express middleware outcomes are `MwResult`: either `next` with the
  context attached to the request, or `respond status message`.
- Times (Date.now, iat/exp claims) are naturals (seconds).
-/

namespace QuickBlog

/-- JWT claim set.  `generateAuthToken` signs {id, email, role};
`generateRefreshToken` signs {id} only, so email/role are optional. -/
structure Payload where
  id : Nat
  email : Option String
  role : Option String
  exp : Nat
deriving DecidableEq, Repr

/-- A signed JWT: claim payload plus the secret it was signed with
(the signature is valid for a verifying secret iff the secrets match). -/
structure Token where
  payload : Payload
  sig : String
deriving DecidableEq, Repr

/-- Errors raised by jsonwebtoken's verify. -/
inductive JwtError where
  | JsonWebTokenError
  | TokenExpiredError
deriving DecidableEq, Repr

/-- jwt.verify(token, secret) at clock time `now`: signature is checked
first (JsonWebTokenError), then the exp claim (TokenExpiredError: the
library rejects when now >= exp). -/
def jwtVerify (t : Token) (secret : String) (now : Nat) : Except JwtError Payload :=
  if t.sig ≠ secret then .error .JsonWebTokenError
  else if t.payload.exp ≤ now then .error .TokenExpiredError
  else .ok t.payload

/-- A bcrypt password-field value: plaintext before the pre-save hook has
run, or a hash recording the salt and the hashed input. -/
inductive PwField where
  | plain (s : String)
  | hashed (salt : Nat) (input : PwField)
deriving DecidableEq, Repr

/-- bcrypt.hash(input, salt). -/
def bcryptHash (salt : Nat) (input : PwField) : PwField :=
  .hashed salt input

/-- bcrypt.compare(candidate, stored): true exactly when `stored` is the
hash of the plaintext `candidate`; comparing against a plaintext or a
double-hashed value fails. -/
def bcryptCompare (candidate : String) (stored : PwField) : Bool :=
  match stored with
  | .hashed _ (.plain s) => candidate == s
  | _ => false

/-- One entry of the user's refreshTokens array: token string plus its
createdAt timestamp (schema default Date.now). -/
structure StoredToken where
  token : Token
  createdAt : Nat
deriving DecidableEq, Repr

/-- A user document (src/models/User.js schema; fields the auth core
reads). -/
structure User where
  _id : Nat
  name : String
  email : String
  password : PwField
  role : String
  isActive : Bool
  lastLogin : Nat
  refreshTokens : List StoredToken
deriving DecidableEq, Repr

/-- The document store: User.findById(id). -/
def findById (db : List User) (id : Nat) : Option User :=
  db.find? (fun u => u._id == id)

/-- this.findOne({ email, isActive: true }) in findByCredentials. -/
def findOneByEmailActive (db : List User) (email : String) : Option User :=
  db.find? (fun u => u.email == email && u.isActive)

/-- Persisting a mutated document: replaces the stored record carrying
the same id. -/
def saveUser (db : List User) (u : User) : List User :=
  db.map (fun v => if v._id == u._id then u else v)

/-- .select('-password -refreshTokens'): the loaded projection excludes
the password hash and the refresh-token set. -/
def selectPublic (u : User) : User :=
  { u with password := .plain "", refreshTokens := [] }

/-- userSchema.pre('save') hook: hash the password (cost-12 salt) iff the
password path was modified on this save; otherwise leave the document
untouched. -/
def preSaveHashPassword (u : User) (modifiedPaths : List String) (salt : Nat) : User :=
  if modifiedPaths.contains "password" then
    { u with password := bcryptHash salt u.password }
  else u

/-- userSchema.methods.comparePassword. -/
def comparePassword (u : User) (candidatePassword : String) : Bool :=
  bcryptCompare candidatePassword u.password

/-- userSchema.methods.generateAuthToken: signs {id, email, role} with
the primary secret, expiresIn JWT_EXPIRE || '7d' (`ttl` seconds). -/
def generateAuthToken (u : User) (secret : String) (now ttl : Nat) : Token :=
  { payload := { id := u._id, email := some u.email, role := some u.role, exp := now + ttl }
    sig := secret }

/-- 7 days in seconds, the fixed refresh-token expiry. -/
def sevenDays : Nat := 604800

/-- userSchema.methods.generateRefreshToken: signs {id} with
JWT_SECRET + 'refresh', expiresIn '7d', and pushes { token } (createdAt
defaulting to now) onto the user's refreshTokens array.  Returns the
token and the mutated (not yet persisted) user. -/
def generateRefreshToken (u : User) (secret : String) (now : Nat) : Token × User :=
  let refreshToken : Token :=
    { payload := { id := u._id, email := none, role := none, exp := now + sevenDays }
      sig := secret ++ "refresh" }
  (refreshToken, { u with refreshTokens := u.refreshTokens ++ [⟨refreshToken, now⟩] })

/-- Modelled from the spec: the login/refresh route handlers that call
generateRefreshToken are not among the provided sources; per the spec,
`issueRefreshToken(user)` appends the token to the user's set "then
persists the user", so the caller is modelled as generateRefreshToken
followed by a store save. -/
def issueRefreshToken (db : List User) (u : User) (secret : String) (now : Nat) :
    Token × User × List User :=
  let r := generateRefreshToken u secret now
  (r.1, r.2, saveUser db r.2)

/-- userSchema.methods.removeRefreshToken. -/
def removeRefreshToken (u : User) (tokenToRemove : Token) : User :=
  { u with refreshTokens := u.refreshTokens.filter (fun tokenObj => tokenObj.token != tokenToRemove) }

/-- Outcome of an Express middleware: `next` passes control onward with
context `α` attached to the request, `respond` short-circuits with an
HTTP status and message. -/
inductive MwResult (α : Type) where
  | next (a : α)
  | respond (status : Nat) (message : String)
deriving DecidableEq, Repr

/-- The Authorization header as the auth middleware parses it: absent,
present but not 'Bearer '-prefixed, or 'Bearer ' followed by an optional
token (none models an empty remainder after the prefix). -/
inductive AuthHeader where
  | absent
  | malformed (raw : String)
  | bearer (token : Option Token)
deriving DecidableEq, Repr

/-- The auth middleware (middleware/auth.js `auth`). -/
def auth (db : List User) (secret : String) (now : Nat) (header : AuthHeader) :
    MwResult User :=
  match header with
  | .absent => .respond 401 "No token provided, authorization denied"
  | .malformed _ => .respond 401 "No token provided, authorization denied"
  | .bearer none => .respond 401 "No token provided, authorization denied"
  | .bearer (some token) =>
    match jwtVerify token secret now with
    | .error .JsonWebTokenError => .respond 401 "Invalid token"
    | .error .TokenExpiredError => .respond 401 "Token expired"
    | .ok decoded =>
      match findById db decoded.id with
      | none => .respond 401 "Token is not valid - user not found"
      | some user =>
        if !user.isActive then .respond 401 "User account is deactivated"
        else .next (selectPublic user)

/-- The optionalAuth middleware: always calls next(), attaching the user
only when the token verifies and resolves to an existing active user. -/
def optionalAuth (db : List User) (secret : String) (now : Nat) (header : AuthHeader) :
    MwResult (Option User) :=
  match header with
  | .bearer (some token) =>
    match jwtVerify token secret now with
    | .ok decoded =>
      match findById db decoded.id with
      | some user =>
        if user.isActive then .next (some (selectPublic user)) else .next none
      | none => .next none
    | .error _ => .next none
  | _ => .next none

/-- The verifyRefreshToken middleware: body field `refreshToken`
(`none` models absence), verification against JWT_SECRET + 'refresh',
user lookup, then membership of the exact token in the stored set. -/
def verifyRefreshToken (db : List User) (secret : String) (now : Nat)
    (refreshToken? : Option Token) : MwResult (User × Token) :=
  match refreshToken? with
  | none => .respond 401 "Refresh token is required"
  | some refreshToken =>
    match jwtVerify refreshToken (secret ++ "refresh") now with
    | .error _ => .respond 401 "Invalid or expired refresh token"
    | .ok decoded =>
      match findById db decoded.id with
      | none => .respond 401 "Invalid refresh token - user not found"
      | some user =>
        if user.refreshTokens.any (fun tokenObj => tokenObj.token == refreshToken) then
          .next (user, refreshToken)
        else .respond 401 "Invalid refresh token"

/-- Result of findByCredentials: the (lastLogin-updated) user and the
store after the save, or the thrown error message. -/
inductive CredResult where
  | ok (user : User) (db : List User)
  | err (message : String)
deriving DecidableEq, Repr

/-- userSchema.statics.findByCredentials: findOne({email, isActive:true}),
throw 'Invalid login credentials' if absent or if comparePassword fails;
on success set lastLogin to now, save, and return the user. -/
def findByCredentials (db : List User) (email password : String) (now : Nat) :
    CredResult :=
  match findOneByEmailActive db email with
  | none => .err "Invalid login credentials"
  | some user =>
    if !comparePassword user password then .err "Invalid login credentials"
    else
      let user' := { user with lastLogin := now }
      .ok user' (saveUser db user')

/-- PUT /api/users/:id/status handler body (after the auth+adminAuth
gates): requires a boolean isActive in the body, the target user to
exist, and the target to differ from the requesting admin; sets
isActive, clears refreshTokens when deactivating, and saves. -/
def updateUserStatus (db : List User) (adminId targetId : Nat)
    (isActive? : Option Bool) : MwResult (User × List User) :=
  match isActive? with
  | none => .respond 400 "isActive must be a boolean value"
  | some isActive =>
    match findById db targetId with
    | none => .respond 404 "User not found"
    | some user =>
      if user._id == adminId then
        .respond 400 "You cannot change your own status"
      else
        let user' := { user with
          isActive := isActive
          refreshTokens := if !isActive then [] else user.refreshTokens }
        .next (user', saveUser db user')

/-! ### Helper lemmas -/

/-- A successful jwt.verify means the secrets matched, the token is not
yet expired, and the returned payload is the token's claim set. -/
theorem jwtVerify_ok_elim {t : Token} {secret : String} {now : Nat} {p : Payload}
    (h : jwtVerify t secret now = .ok p) :
    t.sig = secret ∧ now < t.payload.exp ∧ p = t.payload := by
  unfold jwtVerify at h
  by_cases h1 : t.sig = secret
  · by_cases h2 : t.payload.exp ≤ now
    · simp [h1, h2] at h
    · simp [h1, h2] at h
      exact ⟨h1, by omega, h.symm⟩
  · simp [h1] at h

/-- bcrypt hashing changes the stored password value. -/
theorem hashed_ne (p : PwField) : ∀ salt : Nat, PwField.hashed salt p ≠ p := by
  induction p with
  | plain s => intro salt h; exact PwField.noConfusion h
  | hashed s q ih =>
    intro salt h
    injection h with h1 h2
    exact ih s h2

/-- A record returned by findById carries the looked-up id. -/
theorem findById_some_id {db : List User} {i : Nat} {u : User}
    (h : findById db i = some u) : u._id = i := by
  have := List.find?_some h
  simpa using this

/-- Saving a mutated record that keeps the looked-up record's id makes
subsequent lookups return the mutated record. -/
theorem findById_saveUser {db : List User} {i : Nat} {u u' : User}
    (h : findById db i = some u) (hid : u'._id = u._id) :
    findById (saveUser db u') i = some u' := by
  have hui : u._id = i := findById_some_id h
  induction db with
  | nil => simp [findById] at h
  | cons v t ih =>
    by_cases hv : v._id = i
    · have hvu : v = u := by
        have h' := h
        unfold findById at h'
        rw [List.find?_cons_of_pos _ (by simp [hv])] at h'
        injection h'
      subst hvu
      unfold findById saveUser
      rw [List.map_cons]
      have hcond : (v._id == u'._id) = true := by simp [hid]
      simp only [hcond, if_true]
      rw [List.find?_cons_of_pos _ (by simp [hid, hui])]
    · have h' : findById t i = some u := by
        unfold findById at h ⊢
        rwa [List.find?_cons_of_neg _ (by simp [hv])] at h
      have ht := ih h'
      unfold findById saveUser at ht ⊢
      rw [List.map_cons]
      have hcond : (v._id == u'._id) = false := by
        simp [hid, hui, hv]
      simp only [hcond, Bool.false_eq_true, if_false]
      rw [List.find?_cons_of_neg _ (by simp [hv])]
      exact ht

/-! ### Concrete fixtures for witnesses and counterexamples -/

/-- An active regular user with no stored refresh tokens. -/
def aliceUser : User :=
  { _id := 1, name := "Alice", email := "alice@example.com"
    password := .hashed 12 (.plain "password1"), role := "user"
    isActive := true, lastLogin := 0, refreshTokens := [] }

/-- A refresh token for user 2, signed with "s" + "refresh", expiring
at time 100. -/
def bobRefreshTok : Token :=
  { payload := { id := 2, email := none, role := none, exp := 100 }, sig := "srefresh" }

/-- An access token for user 2, signed with "s", expiring at time 100. -/
def bobAccessTok : Token :=
  { payload := { id := 2, email := none, role := none, exp := 100 }, sig := "s" }

/-- A deactivated user who still holds a stored refresh token. -/
def bobUser : User :=
  { _id := 2, name := "Bob", email := "bob@example.com"
    password := .hashed 12 (.plain "password2"), role := "user"
    isActive := false, lastLogin := 0, refreshTokens := [⟨bobRefreshTok, 0⟩] }

/-- A refresh token for user 3. -/
def carolRefreshTok : Token :=
  { payload := { id := 3, email := none, role := none, exp := 100 }, sig := "srefresh" }

/-- An active user holding a stored refresh token. -/
def carolUser : User :=
  { _id := 3, name := "Carol", email := "carol@example.com"
    password := .hashed 12 (.plain "password3"), role := "user"
    isActive := true, lastLogin := 0, refreshTokens := [⟨carolRefreshTok, 0⟩] }

/-- A token whose signature is wrong and whose expiry is in the past. -/
def staleForgedTok : Token :=
  { payload := { id := 1, email := none, role := none, exp := 0 }, sig := "wrong" }

/-- A token with a valid signature (under secret "s") and past expiry. -/
def staleTok : Token :=
  { payload := { id := 1, email := none, role := none, exp := 0 }, sig := "s" }

/-- When the token verifies and the claimed user is found, the refresh
middleware reduces to the membership test on the stored set. -/
theorem verifyRefreshToken_found {db : List User} {secret : String} {now : Nat}
    {tok : Token} {user : User}
    (hver : jwtVerify tok (secret ++ "refresh") now = .ok tok.payload)
    (hfind : findById db tok.payload.id = some user) :
    verifyRefreshToken db secret now (some tok)
      = if user.refreshTokens.any (fun tokenObj => tokenObj.token == tok)
        then .next (user, tok) else .respond 401 "Invalid refresh token" := by
  simp [verifyRefreshToken, hver, hfind]

/-! ### Claim theorems -/

/-- Claim C2: a token produced by generateAuthToken for an active user,
presented as a Bearer header before its expiry while the user record is
unmodified in the store, always passes the auth middleware and attaches
a user carrying that user's id, email and role. -/
theorem auth_roundtrip (db : List User) (secret : String) (now ttl now' : Nat)
    (user : User) (hactive : user.isActive = true)
    (hfind : findById db user._id = some user)
    (hfresh : now' < now + ttl) :
    auth db secret now' (.bearer (some (generateAuthToken user secret now ttl)))
      = .next (selectPublic user)
    ∧ (selectPublic user)._id = user._id
    ∧ (selectPublic user).email = user.email
    ∧ (selectPublic user).role = user.role := by
  refine ⟨?_, rfl, rfl, rfl⟩
  have hexp : ¬ (now + ttl ≤ now') := by omega
  simp [auth, generateAuthToken, jwtVerify, hexp, hfind, hactive]

/-- Witness for auth_roundtrip: aliceUser's fresh token verified at
issue time. -/
theorem auth_roundtrip_witness :
    auth [aliceUser] "s" 0 (.bearer (some (generateAuthToken aliceUser "s" 0 10)))
      = .next (selectPublic aliceUser)
    ∧ (selectPublic aliceUser)._id = aliceUser._id
    ∧ (selectPublic aliceUser).email = aliceUser.email
    ∧ (selectPublic aliceUser).role = aliceUser.role :=
  auth_roundtrip [aliceUser] "s" 0 10 0 aliceUser rfl (by decide) (by decide)

/-- Claim C5 counterexample: staleForgedTok's expiry (0) lies in the
past at time 10, yet the auth middleware rejects it with 'Invalid
token' — jsonwebtoken checks the signature before the exp claim — so a
past-expiry token is not always rejected with 'Token expired'. -/
theorem auth_expired_cex :
    staleForgedTok.payload.exp < 10
    ∧ auth [] "s" 10 (.bearer (some staleForgedTok)) = .respond 401 "Invalid token" := by
  decide

/-- Claim C5 (amended): every token whose signature verifies under the
primary secret and whose expiry is not in the future is rejected by the
auth middleware with 401 'Token expired', never 'Invalid token'. -/
theorem auth_expired_amended (db : List User) (secret : String) (now : Nat)
    (tok : Token) (hsig : tok.sig = secret) (hexp : tok.payload.exp ≤ now) :
    auth db secret now (.bearer (some tok)) = .respond 401 "Token expired" := by
  simp [auth, jwtVerify, hsig, hexp]

/-- Witness for auth_expired_amended: a validly-signed token that
expired at time 0, checked at time 10. -/
theorem auth_expired_amended_witness :
    auth [] "s" 10 (.bearer (some staleTok)) = .respond 401 "Token expired" :=
  auth_expired_amended [] "s" 10 staleTok rfl (by decide)

/-- Claim C6 counterexample: with the refreshToken body field absent,
verifyRefreshToken responds 401 'Refresh token is required' — an HTTP
401, not the claimed 400 BadRequest. -/
theorem refresh_required_cex :
    verifyRefreshToken [] "s" 0 none = .respond 401 "Refresh token is required"
    ∧ verifyRefreshToken [] "s" 0 none ≠ .respond 400 "Refresh token is required" := by
  decide

/-- Claim C6 (amended): when the refresh-token field is absent the
Refresh Flow fails with HTTP 401 'Refresh token is required' — the same
401 status class as the later verification failures, not a 400. -/
theorem refresh_required_amended (db : List User) (secret : String) (now : Nat) :
    verifyRefreshToken db secret now none = .respond 401 "Refresh token is required" := rfl

/-- Claim C7: issueRefreshToken signs a claim set containing only the
user's id with the derived secret (primary secret ++ 'refresh') and a
fixed 7-day expiry, appends the token string with its creation time to
the user's refresh-token set, and persists the user. -/
theorem issueRefreshToken_spec (db : List User) (u : User) (secret : String) (now : Nat) :
    (issueRefreshToken db u secret now).1.payload
        = { id := u._id, email := none, role := none, exp := now + sevenDays }
    ∧ sevenDays = 7 * 24 * 60 * 60
    ∧ (issueRefreshToken db u secret now).1.sig = secret ++ "refresh"
    ∧ (issueRefreshToken db u secret now).2.1.refreshTokens
        = u.refreshTokens ++ [⟨(issueRefreshToken db u secret now).1, now⟩]
    ∧ (issueRefreshToken db u secret now).2.2
        = saveUser db (issueRefreshToken db u secret now).2.1 :=
  ⟨rfl, rfl, rfl, rfl, rfl⟩

/-- Claim C1 counterexample: bobUser is deactivated yet still holds
bobRefreshTok in his stored set; verifyRefreshToken accepts the token
(it never consults isActive), so inactive users are not rejected at
refresh-token verification time. -/
theorem inactive_refresh_cex :
    bobUser.isActive = false
    ∧ jwtVerify bobRefreshTok ("s" ++ "refresh") 1 = .ok bobRefreshTok.payload
    ∧ verifyRefreshToken [bobUser] "s" 1 (some bobRefreshTok)
        = .next (bobUser, bobRefreshTok) :=
  ⟨rfl, rfl, by decide⟩

/-- Claim C1 (amended): the auth middleware rejects a deactivated
user's otherwise-valid token with 401 'User account is deactivated',
but verifyRefreshToken performs no isActive check: a deactivated user's
refresh token is accepted whenever it verifies and is still present in
the stored set. -/
theorem inactive_rejection_amended (db : List User) (secret : String) (now : Nat)
    (tok : Token) (user : User)
    (hfind : findById db tok.payload.id = some user) :
    (user.isActive = false → jwtVerify tok secret now = .ok tok.payload →
      auth db secret now (.bearer (some tok)) = .respond 401 "User account is deactivated")
    ∧ (jwtVerify tok (secret ++ "refresh") now = .ok tok.payload →
        user.refreshTokens.any (fun tokenObj => tokenObj.token == tok) = true →
        verifyRefreshToken db secret now (some tok) = .next (user, tok)) := by
  constructor
  · intro hinactive hver
    simp [auth, hver, hfind, hinactive]
  · intro hver hmem
    rw [verifyRefreshToken_found hver hfind]
    simp [hmem]

/-- Witness for inactive_rejection_amended: bobUser (deactivated) with
matching access and refresh tokens. -/
theorem inactive_rejection_amended_witness :
    auth [bobUser] "s" 1 (.bearer (some bobAccessTok))
      = .respond 401 "User account is deactivated"
    ∧ verifyRefreshToken [bobUser] "s" 1 (some bobRefreshTok)
        = .next (bobUser, bobRefreshTok) :=
  ⟨(inactive_rejection_amended [bobUser] "s" 1 bobAccessTok bobUser (by decide)).1 rfl rfl,
   (inactive_rejection_amended [bobUser] "s" 1 bobRefreshTok bobUser (by decide)).2 rfl (by decide)⟩

/-- Claim C3: for a refresh token that verifies under the derived
secret and whose claimed user exists, the Refresh Flow succeeds iff the
exact token is a member of the user's stored refresh-token set; a token
removed by removeRefreshToken (logout) is rejected with 'Invalid
refresh token' although its signature still verifies. -/
theorem refresh_membership (db db' : List User) (secret : String) (now : Nat)
    (tok : Token) (user : User)
    (hver : jwtVerify tok (secret ++ "refresh") now = .ok tok.payload)
    (hfind : findById db tok.payload.id = some user) :
    (verifyRefreshToken db secret now (some tok) = .next (user, tok)
      ↔ user.refreshTokens.any (fun tokenObj => tokenObj.token == tok) = true)
    ∧ (user.refreshTokens.any (fun tokenObj => tokenObj.token == tok) = false →
        verifyRefreshToken db secret now (some tok) = .respond 401 "Invalid refresh token")
    ∧ (removeRefreshToken user tok).refreshTokens.any
        (fun tokenObj => tokenObj.token == tok) = false
    ∧ (findById db' tok.payload.id = some (removeRefreshToken user tok) →
        verifyRefreshToken db' secret now (some tok)
          = .respond 401 "Invalid refresh token") := by
  have hrm : (removeRefreshToken user tok).refreshTokens.any
      (fun tokenObj => tokenObj.token == tok) = false := by
    simp only [removeRefreshToken]
    induction user.refreshTokens with
    | nil => rfl
    | cons o t ih =>
      by_cases h : o.token = tok
      · simp [List.filter_cons, h, ih]
      · simp [List.filter_cons, h, ih]
  have h1 := verifyRefreshToken_found hver hfind
  refine ⟨?_, ?_, hrm, ?_⟩
  · constructor
    · intro hnext
      cases hmem : user.refreshTokens.any (fun tokenObj => tokenObj.token == tok) with
      | true => rfl
      | false => rw [h1] at hnext; simp [hmem] at hnext
    · intro hmem
      rw [h1]; simp [hmem]
  · intro hmem
    rw [h1]; simp [hmem]
  · intro hfind'
    rw [verifyRefreshToken_found hver hfind']
    simp [hrm]

/-- Witness for refresh_membership: carolUser's stored token succeeds;
after removeRefreshToken the same still-verifying token is rejected. -/
theorem refresh_membership_witness :
    verifyRefreshToken [carolUser] "s" 1 (some carolRefreshTok)
      = .next (carolUser, carolRefreshTok)
    ∧ verifyRefreshToken [removeRefreshToken carolUser carolRefreshTok] "s" 1
        (some carolRefreshTok) = .respond 401 "Invalid refresh token" := by
  have h := refresh_membership [carolUser] [removeRefreshToken carolUser carolRefreshTok]
      "s" 1 carolRefreshTok carolUser rfl (by decide)
  exact ⟨h.1.mpr (by decide), h.2.2.2 (by decide)⟩

/-- Claim C4: findByCredentials succeeds exactly when an active user
with the email is found and the password matches its stored hash; the
failure cases (no such user, user inactive — both make the active-only
lookup come back empty — and password mismatch) all throw the same
generic 'Invalid login credentials'; success updates lastLogin and
persists the user. -/
theorem findByCredentials_spec (db : List User) (email password : String) (now : Nat) :
    (∀ msg, findByCredentials db email password now = .err msg →
      msg = "Invalid login credentials")
    ∧ ((∃ u db', findByCredentials db email password now = .ok u db')
        ↔ ∃ u, findOneByEmailActive db email = some u ∧ comparePassword u password = true)
    ∧ (∀ u, findOneByEmailActive db email = some u → comparePassword u password = true →
        findByCredentials db email password now
          = .ok { u with lastLogin := now } (saveUser db { u with lastLogin := now }))
    ∧ ((findOneByEmailActive db email).isSome
        ↔ ∃ u ∈ db, u.email = email ∧ u.isActive = true) := by
  refine ⟨?_, ?_, ?_, ?_⟩
  · intro msg hmsg
    unfold findByCredentials at hmsg
    cases hfo : findOneByEmailActive db email with
    | none =>
      rw [hfo] at hmsg
      injection hmsg with h
      exact h.symm
    | some w =>
      rw [hfo] at hmsg
      cases hc : comparePassword w password with
      | true => simp [hc] at hmsg
      | false =>
        simp [hc] at hmsg
        exact hmsg.symm
  · constructor
    · rintro ⟨u, db', hok⟩
      unfold findByCredentials at hok
      cases hfo : findOneByEmailActive db email with
      | none => rw [hfo] at hok; exact CredResult.noConfusion hok
      | some w =>
        rw [hfo] at hok
        cases hc : comparePassword w password with
        | true => exact ⟨w, rfl, hc⟩
        | false => simp [hc] at hok
    · rintro ⟨u, hfo, hc⟩
      exact ⟨{ u with lastLogin := now }, saveUser db { u with lastLogin := now },
        by simp [findByCredentials, hfo, hc]⟩
  · intro u hfo hc
    simp [findByCredentials, hfo, hc]
  · simp [findOneByEmailActive, List.find?_isSome]

/-- Witness for findByCredentials_spec: carolUser logging in with her
stored password. -/
theorem findByCredentials_witness :
    findByCredentials [carolUser] "carol@example.com" "password3" 7
      = .ok { carolUser with lastLogin := 7 }
          (saveUser [carolUser] { carolUser with lastLogin := 7 }) :=
  (findByCredentials_spec [carolUser] "carol@example.com" "password3" 7).2.2.1
    carolUser (by decide) (by decide)

/-- Claim C8: the pre-save hook recomputes the stored password hash iff
the password path was modified on that save; a save modifying only
other paths leaves the document — in particular the stored password
hash — unchanged. -/
theorem preSave_hash_iff (u : User) (modifiedPaths : List String) (salt : Nat) :
    ((preSaveHashPassword u modifiedPaths salt).password = u.password
      ↔ modifiedPaths.contains "password" = false)
    ∧ (modifiedPaths.contains "password" = false →
        preSaveHashPassword u modifiedPaths salt = u)
    ∧ (modifiedPaths.contains "password" = true →
        (preSaveHashPassword u modifiedPaths salt).password = bcryptHash salt u.password) := by
  cases hm : modifiedPaths.contains "password" with
  | false =>
    have hm' : "password" ∉ modifiedPaths := by simpa using hm
    simp [preSaveHashPassword, hm, hm']
  | true =>
    have hm' : "password" ∈ modifiedPaths := by simpa using hm
    simp [preSaveHashPassword, hm, hm', bcryptHash]
    exact hashed_ne u.password salt

/-- Witness for preSave_hash_iff: a save touching only lastLogin keeps
aliceUser intact; a save touching password rehashes it. -/
theorem preSave_hash_iff_witness :
    preSaveHashPassword aliceUser ["lastLogin"] 12 = aliceUser
    ∧ (preSaveHashPassword aliceUser ["password"] 12).password
        = bcryptHash 12 aliceUser.password :=
  ⟨(preSave_hash_iff aliceUser ["lastLogin"] 12).2.1 (by decide),
   (preSave_hash_iff aliceUser ["password"] 12).2.2 (by decide)⟩

/-- Claim C9: optionalAuth always calls next() whatever the
Authorization header holds; a user is attached exactly when the header
carries a Bearer token that verifies and resolves to an existing active
user. -/
theorem optionalAuth_spec (db : List User) (secret : String) (now : Nat)
    (header : AuthHeader) :
    (∃ attached, optionalAuth db secret now header = .next attached)
    ∧ (∀ v, optionalAuth db secret now header = .next (some v) →
        ∃ tok user, header = .bearer (some tok)
          ∧ jwtVerify tok secret now = .ok tok.payload
          ∧ findById db tok.payload.id = some user
          ∧ user.isActive = true ∧ v = selectPublic user)
    ∧ (∀ tok user, header = .bearer (some tok) →
        jwtVerify tok secret now = .ok tok.payload →
        findById db tok.payload.id = some user → user.isActive = true →
        optionalAuth db secret now header = .next (some (selectPublic user))) := by
  refine ⟨?_, ?_, ?_⟩
  · cases header with
    | absent => exact ⟨none, rfl⟩
    | malformed raw => exact ⟨none, rfl⟩
    | bearer t? =>
      cases t? with
      | none => exact ⟨none, rfl⟩
      | some tok =>
        cases hver : jwtVerify tok secret now with
        | error e => exact ⟨none, by simp [optionalAuth, hver]⟩
        | ok p =>
          cases hf : findById db p.id with
          | none => exact ⟨none, by simp [optionalAuth, hver, hf]⟩
          | some user =>
            cases ha : user.isActive with
            | false => exact ⟨none, by simp [optionalAuth, hver, hf, ha]⟩
            | true => exact ⟨some (selectPublic user), by simp [optionalAuth, hver, hf, ha]⟩
  · intro v hv
    cases header with
    | absent => simp [optionalAuth] at hv
    | malformed raw => simp [optionalAuth] at hv
    | bearer t? =>
      cases t? with
      | none => simp [optionalAuth] at hv
      | some tok =>
        cases hver : jwtVerify tok secret now with
        | error e => simp [optionalAuth, hver] at hv
        | ok p =>
          obtain ⟨-, -, hp⟩ := jwtVerify_ok_elim hver
          subst hp
          cases hf : findById db tok.payload.id with
          | none => simp [optionalAuth, hver, hf] at hv
          | some user =>
            cases ha : user.isActive with
            | false => simp [optionalAuth, hver, hf, ha] at hv
            | true =>
              simp only [optionalAuth, hver, hf, ha, if_true] at hv
              injection hv with hv'
              injection hv' with hv''
              exact ⟨tok, user, rfl, hver, hf, ha, hv''.symm⟩
  · intro tok user hh hver hf ha
    subst hh
    simp [optionalAuth, hver, hf, ha]

/-- An access token for carolUser, used by the optionalAuth witness. -/
def carolAccessTok : Token :=
  { payload := { id := 3, email := none, role := none, exp := 100 }, sig := "s" }

/-- Witness for optionalAuth_spec: carolUser's valid token attaches
her; the same call shape also covers the always-next conjunct. -/
theorem optionalAuth_spec_witness :
    optionalAuth [carolUser] "s" 1 (.bearer (some carolAccessTok))
      = .next (some (selectPublic carolUser)) :=
  (optionalAuth_spec [carolUser] "s" 1 (.bearer (some carolAccessTok))).2.2
    carolAccessTok carolUser rfl rfl (by decide) rfl

/-- The seeded administrator account, used by the status-route
witness. -/
def adminUser : User :=
  { _id := 10, name := "Admin", email := "admin@blogsite.com"
    password := .hashed 12 (.plain "adminpw"), role := "admin"
    isActive := true, lastLogin := 0, refreshTokens := [] }

/-- A refresh token for user 4. -/
def daveRefreshTok : Token :=
  { payload := { id := 4, email := none, role := none, exp := 100 }, sig := "srefresh" }

/-- An active user holding a stored refresh token, target of the
status-route witness. -/
def daveUser : User :=
  { _id := 4, name := "Dave", email := "dave@example.com"
    password := .hashed 12 (.plain "password4"), role := "user"
    isActive := true, lastLogin := 0, refreshTokens := [⟨daveRefreshTok, 0⟩] }

/-- Claim C10: deactivating a user via the admin status route clears
the target's entire stored refresh-token set before the save, so
afterwards no token claiming that user passes the Refresh Flow's
membership check; activating leaves the refresh-token set unchanged. -/
theorem updateUserStatus_spec (db : List User) (adminId targetId : Nat)
    (user : User) (secret : String) (now : Nat)
    (hfind : findById db targetId = some user) (hne : user._id ≠ adminId) :
    updateUserStatus db adminId targetId (some false)
      = .next ({ user with isActive := false, refreshTokens := [] },
          saveUser db { user with isActive := false, refreshTokens := [] })
    ∧ (∀ tok : Token, tok.payload.id = targetId → ∀ w rt,
        verifyRefreshToken (saveUser db { user with isActive := false, refreshTokens := [] })
          secret now (some tok) ≠ .next (w, rt))
    ∧ updateUserStatus db adminId targetId (some true)
      = .next ({ user with isActive := true },
          saveUser db { user with isActive := true }) := by
  have hbeq : (user._id == adminId) = false := by simp [hne]
  refine ⟨?_, ?_, ?_⟩
  · simp [updateUserStatus, hfind, hbeq]
  · intro tok hid w rt hnext
    have hfind' : findById (saveUser db { user with isActive := false, refreshTokens := [] })
        tok.payload.id = some { user with isActive := false, refreshTokens := [] } := by
      rw [hid]
      exact findById_saveUser hfind rfl
    cases hver : jwtVerify tok (secret ++ "refresh") now with
    | error e => simp [verifyRefreshToken, hver] at hnext
    | ok p =>
      obtain ⟨-, -, hp⟩ := jwtVerify_ok_elim hver
      subst hp
      rw [verifyRefreshToken_found hver hfind'] at hnext
      simp at hnext
  · simp [updateUserStatus, hfind, hbeq]

/-- Witness for updateUserStatus_spec: an admin deactivates daveUser;
his previously stored, still-verifying refresh token no longer passes
the refresh middleware. -/
theorem updateUserStatus_spec_witness :
    updateUserStatus [adminUser, daveUser] 10 4 (some false)
      = .next ({ daveUser with isActive := false, refreshTokens := [] },
          saveUser [adminUser, daveUser] { daveUser with isActive := false, refreshTokens := [] })
    ∧ verifyRefreshToken
        (saveUser [adminUser, daveUser] { daveUser with isActive := false, refreshTokens := [] })
        "s" 1 (some daveRefreshTok)
        ≠ .next ({ daveUser with isActive := false, refreshTokens := [] }, daveRefreshTok) := by
  have h := updateUserStatus_spec [adminUser, daveUser] 10 4 daveUser "s" 1
    (by decide) (by decide)
  exact ⟨h.1, h.2.1 daveRefreshTok rfl
    { daveUser with isActive := false, refreshTokens := [] } daveRefreshTok⟩

end QuickBlog
